import Mathlib

/-!
Shallow embedding of the socket-igo event bus (Go server: `client.go`,
`server.go`, `room.go`; TypeScript client: `client.ts`).

JSON-shaped payloads (`map[string]interface{}` on the Go side, parsed JSON
on the TS side) are modelled by `JVal`.  A server-side `Client` (Peer) keeps
its event registry, the list of frames it has passed to the transport write
(`written`), and a log of listener invocations (`invoked`).  Handlers are
deep-embedded (`HandlerBody`): a listener logs its invocation, may
re-dispatch one well-formed frame on the same connection (modelling a
re-entrant trigger from within the handler), and returns a result value.
Unchecked Go type assertions are modelled by `Except GoPanic`.
-/

inductive JVal where
  | str (s : String)
  | num (n : Int)
  | bool (b : Bool)
  | null
  | obj (fields : List (String × JVal))
  | arr (elems : List JVal)


/-- Lookup of a key in a decoded key-value payload (`data["k"]` on a Go map,
`obj.k` in TS); `none` models Go's nil interface / JS `undefined`. -/
def lookupJ (l : List (String × JVal)) (k : String) : Option JVal :=
  (l.find? (fun p => p.1 = k)).map (fun p => p.2)

/-- Behaviour of one user listener: log the invocation under `hid`, possibly
re-dispatch one frame `{event := e, data := d}` re-entrantly, and return
`result` (the value the Go `EventListener` returns). -/
structure HandlerBody where
  hid : String
  retrigger : Option (String × List (String × JVal))
  result : JVal


/-- A registry entry: either a plain listener (`Client.On`) or the closure
installed by `Client.Once`, which deletes the captured `eventName` binding
before running the wrapped listener. -/
inductive GoHandler where
  | plain (b : HandlerBody)
  | onceWrap (eventName : String) (b : HandlerBody)


/-- `client.Events[name]` on a Go map (keys are unique). -/
def lookupE (l : List (String × GoHandler)) (k : String) : Option GoHandler :=
  (l.find? (fun p => p.1 = k)).map (fun p => p.2)

/-- `delete(client.Events, name)`. -/
def eraseE (l : List (String × GoHandler)) (k : String) : List (String × GoHandler) :=
  match l with
  | [] => []
  | (k', h) :: rest => if k' = k then eraseE rest k else (k', h) :: eraseE rest k

/-- `client.Events[name] = h` (replace-on-register map semantics). -/
def insertE (l : List (String × GoHandler)) (k : String) (h : GoHandler) :
    List (String × GoHandler) :=
  match l with
  | [] => [(k, h)]
  | (k', h') :: rest =>
      if k' = k then (k, h) :: rest else (k', h') :: insertE rest k h

/-- Server-side Peer (`Client` in `client.go`).  `id` models the UUID
(pointer identity), `written` the frames passed to `socket.WriteJSON` in
order, `invoked` the log of listener invocations `(hid, data)`. -/
structure Client where
  id : Nat
  events : List (String × GoHandler)
  written : List JVal
  invoked : List (String × JVal)
  closed : Bool


/-- `createClient`: fresh identity, empty registry. -/
def createClient (cid : Nat) : Client :=
  { id := cid, events := [], written := [], invoked := [], closed := false }

namespace Client

/-- `Emit`: `socket.WriteJSON(map{"event": eventName, "data": data})` —
the payload written holds exactly the keys `event` and `data`. -/
def Emit (c : Client) (eventName : String) (data : JVal) : Client :=
  { c with written :=
      c.written ++ [JVal.obj [("event", JVal.str eventName), ("data", data)]] }

/-- `On`: bind (replacing any previous binding for the name). -/
def On (c : Client) (eventName : String) (b : HandlerBody) : Client :=
  { c with events := insertE c.events eventName (GoHandler.plain b) }

/-- `Once`: install the self-deleting wrapper closure. -/
def Once (c : Client) (eventName : String) (b : HandlerBody) : Client :=
  { c with events := insertE c.events eventName (GoHandler.onceWrap eventName b) }

/-- `Off`: delete any binding for the name. -/
def Off (c : Client) (eventName : String) : Client :=
  { c with events := eraseE c.events eventName }

/-- `Close`: closes the transport (nothing else; no removal from Hub/Rooms). -/
def Close (c : Client) : Client :=
  { c with closed := true }

end Client

/-- Outcome of an unchecked Go type assertion in `handleClientData`, or fuel
exhaustion of the model's re-entrancy recursion. -/
inductive GoPanic where
  | badEvent
  | badData
  | badAck
  | outOfFuel


/-- A well-formed inbound frame without `ackId` (used for re-dispatch). -/
def mkFrame (e : String) (d : List (String × JVal)) : List (String × JVal) :=
  [("event", JVal.str e), ("data", JVal.obj d)]

/-- `handleClientData` (`client.go` 26-46): assert `data["event"].(string)`
and `data["data"].(map[string]interface{})` (panic on failure), read the
optional `ackId` (panic if present, non-null and not a string), look up the
handler; if none, drop silently; otherwise invoke it (the `Once` wrapper
deletes its registry entry first), and if `ackId` is non-empty emit
`{event}@ack:{ackId}` with payload `{result: <listener result>}` back on the
same connection.  `fuel` bounds re-entrant re-dispatch depth. -/
def handleClientData : Nat → Client → List (String × JVal) → Except GoPanic Client
  | 0, _, _ => .error .outOfFuel
  | Nat.succ fuel, c, data =>
    match lookupJ data "event" with
    | some (JVal.str eventName) =>
      match lookupJ data "data" with
      | some (JVal.obj eventData) =>
        let ackRes : Except GoPanic String :=
          match lookupJ data "ackId" with
          | none => .ok ""
          | some JVal.null => .ok ""
          | some (JVal.str s) => .ok s
          | some _ => .error .badAck
        match ackRes with
        | .error e => .error e
        | .ok ackId =>
          match lookupE c.events eventName with
          | none => .ok c
          | some h =>
            let step : Client × HandlerBody :=
              match h with
              | .plain b => (c, b)
              | .onceWrap nm b => ({ c with events := eraseE c.events nm }, b)
            let c1 := step.1
            let b := step.2
            let c2 := { c1 with invoked := c1.invoked ++ [(b.hid, JVal.obj eventData)] }
            let afterRe : Except GoPanic Client :=
              match b.retrigger with
              | none => .ok c2
              | some (e', d') => handleClientData fuel c2 (mkFrame e' d')
            match afterRe with
            | .error e => .error e
            | .ok c3 =>
              if ackId = "" then .ok c3
              else .ok (c3.Emit (eventName ++ "@ack:" ++ ackId)
                         (JVal.obj [("result", b.result)]))
      | _ => .error .badData
    | _ => .error .badEvent

/-! ## Rooms and the Hub (`room.go`, `server.go`)

Pointers to `Client` objects are modelled by their `id`; the `heap` of a
`World` holds every `Client` object ever created, while `hub` is the
`IgoServer.Clients` live list (ids in order) and `rooms` is
`IgoServer.Rooms`.  A `Room` keeps a `ref` modelling its own pointer
identity, its `Id` (name) and the `clients` membership list. -/

/-- Removal of the first matching element, as the
`append(xs[:i], xs[i+1:]...)` + `break` loops in `wsReader` and
`Client.Leave`. -/
def removeFirst (x : Nat) : List Nat → List Nat
  | [] => []
  | y :: ys => if y = x then ys else y :: removeFirst x ys

/-- `Room` (`room.go`).  `joinedSet`/`leftSet` model whether the optional
callbacks are non-nil; `joinedCalls`/`leftCalls` log the clients they were
invoked with. -/
structure Room where
  ref : Nat
  roomId : String
  members : List Nat
  joinedSet : Bool
  leftSet : Bool
  joinedCalls : List Nat
  leftCalls : List Nat

/-- `Client.Join` (`client.go` 74-80): append membership (no dedup), then
invoke the on-joined callback if set. -/
def Join (cid : Nat) (r : Room) : Room :=
  let r' := { r with members := r.members ++ [cid] }
  if r'.joinedSet then { r' with joinedCalls := r'.joinedCalls ++ [cid] } else r'

/-- `Client.Leave` (`client.go` 82-93): remove the first matching membership
entry (loop + `break`), then invoke the on-left callback if set — the
callback call is unconditional in the source, it does not depend on whether
a membership entry was found and removed. -/
def Leave (cid : Nat) (r : Room) : Room :=
  let r' := { r with members := removeFirst cid r.members }
  if r'.leftSet then { r' with leftCalls := r'.leftCalls ++ [cid] } else r'

/-- Whole-server state: all client objects (`heap`), the live list
`IgoServer.Clients` (`hub`), `IgoServer.Rooms`, and fresh-id counters for
UUIDs and room pointers. -/
structure World where
  heap : List Client
  hub : List Nat
  rooms : List Room
  nextId : Nat
  nextRef : Nat

/-- Write one frame through the pointer `cid`: apply `Client.Emit` to the
heap object(s) with that id. -/
def writeTo (h : List Client) (cid : Nat) (e : String) (d : JVal) : List Client :=
  h.map (fun c => if c.id = cid then c.Emit e d else c)

/-- `IgoServer.Emit` (`server.go` 66-70): `Client.Emit` on every live client
in list order. -/
def hubEmit (w : World) (e : String) (d : JVal) : World :=
  { w with heap := w.hub.foldl (fun h cid => writeTo h cid e d) w.heap }

/-- `Room.Emit` (`room.go` 18-22): `Client.Emit` on every member, through
the pointers the room stores — regardless of whether they are still in the
Hub's live list. -/
def roomEmit (w : World) (r : Room) (e : String) (d : JVal) : World :=
  { w with heap := r.members.foldl (fun h cid => writeTo h cid e d) w.heap }

/-- `IgoServer.CreateRoom` (`server.go` 81-88): build a new empty room and
append it — no uniqueness check on the name. Returns the new room too. -/
def CreateRoom (w : World) (name : String) : World × Room :=
  let room : Room :=
    { ref := w.nextRef, roomId := name, members := []
      joinedSet := false, leftSet := false, joinedCalls := [], leftCalls := [] }
  ({ w with rooms := w.rooms ++ [room], nextRef := w.nextRef + 1 }, room)

/-- `IgoServer.GetRoom` (`server.go` 90-97): first room whose `Id` matches,
`nil` (`none`) when there is none. -/
def GetRoom (w : World) (name : String) : Option Room :=
  w.rooms.find? (fun r => r.roomId = name)

/-- The accept path of `IgoServer.Handle` (`server.go` 108-135) after a
successful upgrade: pre-connect hook (inspection only), `createClient` with
a fresh identity, append to `Clients`, connected hook, start the reader.
No frame is written to the new connection by this path. -/
def acceptClient (w : World) : World × Client :=
  let c := createClient w.nextId
  ({ w with heap := w.heap ++ [c], hub := w.hub ++ [c.id], nextId := w.nextId + 1 }, c)

/-- The read-failure path of `wsReader` (`server.go` 140-153): remove the
client from `IgoServer.Clients` (first match, `break`), close its socket,
invoke the disconnected hook.  Rooms are not touched. -/
def disconnectCleanup (w : World) (cid : Nat) : World :=
  { w with hub := removeFirst cid w.hub
           heap := w.heap.map (fun c => if c.id = cid then c.Close else c) }

/-! ## TypeScript client (`client.ts`)

Handlers are again deep-embedded: a `TsBody` logs its invocation and may
re-dispatch one frame (modelling a re-entrant call of the dispatch
mechanism from within the handler).  `TsHandler.onceH` is the wrapper
installed by `once`, which runs the wrapped handler first and only then
removes itself via `off` (reference equality modelled by `uid`). -/

structure TsBody where
  uid : Nat
  redispatch : Option (String × JVal)

inductive TsHandler where
  | plainH (b : TsBody)
  | onceH (b : TsBody)

def TsHandler.buid : TsHandler → Nat
  | .plainH b => b.uid
  | .onceH b => b.uid

/-- Client-side bus state: multi-handler registry (ordered lists), the
server-assigned identity `_id`, logs of handler invocations and lifecycle
hook calls, the double-handshake error counter, and the reconnect flag. -/
structure TsState where
  handlers : List (String × List TsHandler)
  clientId : String
  invoked : List (Nat × JVal)
  connectedCalls : Nat
  disconnectedCalls : Nat
  preConnectedCalls : Nat
  handshakeErrors : Nat
  reconnectScheduled : Bool
  socketOpen : Bool

/-- `this._handlers[event]` — `undefined` becomes the empty list. -/
def getHandlers (st : TsState) (e : String) : List TsHandler :=
  match st.handlers.find? (fun p => p.1 = e) with
  | some p => p.2
  | none => []

/-- Replace the handler list stored under `e` (in place, or append a new
entry as `on` does for a fresh event name). -/
def setHandlers (l : List (String × List TsHandler)) (e : String)
    (hs : List TsHandler) : List (String × List TsHandler) :=
  match l with
  | [] => [(e, hs)]
  | (k, v) :: rest =>
      if k = e then (e, hs) :: rest else (k, v) :: setHandlers rest e hs

/-- Remove the first handler with the given reference (`uid`) from a list —
`indexOf` + `splice(index, 1)`. -/
def removeHandler (uid : Nat) : List TsHandler → List TsHandler
  | [] => []
  | h :: hs => if h.buid = uid then hs else h :: removeHandler uid hs

/-- `on(event, handler)`: append to the (possibly fresh) list. -/
def tsOn (st : TsState) (e : String) (h : TsHandler) : TsState :=
  { st with handlers := setHandlers st.handlers e (getHandlers st e ++ [h]) }

/-- `off(event, handler)`: remove the first entry with that reference; no-op
when the event has no list or the handler is not in it. -/
def tsOff (st : TsState) (e : String) (uid : Nat) : TsState :=
  { st with handlers := setHandlers st.handlers e (removeHandler uid (getHandlers st e)) }

/-- `once(event, handler)`: register the self-removing wrapper (which calls
the handler first and removes itself afterwards). -/
def tsOnce (st : TsState) (e : String) (b : TsBody) : TsState :=
  tsOn st e (TsHandler.onceH b)

/-- `connect()` (`client.ts` 145-151): clear `_id`, open a fresh socket. -/
def tsConnect (st : TsState) : TsState :=
  { st with clientId := "", reconnectScheduled := false, socketOpen := true }

/-- `onOpen()`: invoke the pre-connected hook. -/
def tsOnOpen (st : TsState) : TsState :=
  { st with preConnectedCalls := st.preConnectedCalls + 1 }

/-- `onClose()` (`client.ts` 159-164): invoke the disconnected hook and
schedule `connect()` after the reconnect delay.  `_id` is NOT cleared
here — it is cleared only when the scheduled `connect()` runs. -/
def tsOnClose (st : TsState) : TsState :=
  { st with disconnectedCalls := st.disconnectedCalls + 1
            reconnectScheduled := true
            socketOpen := false }

/-- `eventData.clientId as string` for a handshake payload. -/
def jClientId (d : JVal) : String :=
  match d with
  | JVal.obj fields =>
      match lookupJ fields "clientId" with
      | some (JVal.str s) => s
      | _ => ""
  | _ => ""

/-- One pending activation inside the client's `onMessage` machinery: a
whole message dispatch, the `for ... of` loop over the handler list at
index `i` (re-reading the list from the state each step, as the live JS
array iterator does), or the run of one handler. -/
inductive TsCall where
  | msg (eventName : String) (eventData : JVal)
  | loop (eventName : String) (eventData : JVal) (i : Nat)
  | run (eventName : String) (eventData : JVal) (h : TsHandler)

/-- `onMessage` (`client.ts` 166-191) and the handler runs it causes.
`#handshake` received with an identity already set logs an error and
returns; otherwise it stores the server-assigned id and fires the
connected hook.  Any other event is dispatched to every handler currently
bound to it, in order; a `once` wrapper runs its handler first and removes
itself afterwards.  `fuel` bounds the recursion depth of re-entrant
dispatch (at fuel 0 the state is returned unchanged). -/
def tsStep : Nat → TsState → TsCall → TsState
  | 0, st, _ => st
  | Nat.succ fuel, st, call =>
    match call with
    | .msg e d =>
        if e = "#handshake" then
          if st.clientId = "" then
            { st with clientId := jClientId d, connectedCalls := st.connectedCalls + 1 }
          else
            { st with handshakeErrors := st.handshakeErrors + 1 }
        else
          tsStep fuel st (.loop e d 0)
    | .loop e d i =>
        match (getHandlers st e).get? i with
        | none => st
        | some h => tsStep fuel (tsStep fuel st (.run e d h)) (.loop e d (i + 1))
    | .run e d h =>
        match h with
        | .plainH b =>
            let st1 := { st with invoked := st.invoked ++ [(b.uid, d)] }
            match b.redispatch with
            | none => st1
            | some (e', d') => tsStep fuel st1 (.msg e' d')
        | .onceH b =>
            let st1 := { st with invoked := st.invoked ++ [(b.uid, d)] }
            let st2 :=
              match b.redispatch with
              | none => st1
              | some (e', d') => tsStep fuel st1 (.msg e' d')
            tsOff st2 e b.uid

/-- The client state right after construction (before any traffic). -/
def emptyTs : TsState :=
  { handlers := [], clientId := "", invoked := [], connectedCalls := 0
    disconnectedCalls := 0, preConnectedCalls := 0, handshakeErrors := 0
    reconnectScheduled := false, socketOpen := true }

/-! ## Observations -/

/-- The write history of the (first) heap object with the given id. -/
def heapWrittenOf (h : List Client) (cid : Nat) : Option (List JVal) :=
  (h.find? (fun c => c.id = cid)).map (fun c => c.written)

def writtenOf (w : World) (cid : Nat) : Option (List JVal) :=
  heapWrittenOf w.heap cid

/-- The frame `Client.Emit e d` puts on the wire. -/
def emittedFrame (e : String) (d : JVal) : JVal :=
  JVal.obj [("event", JVal.str e), ("data", d)]

/-- A frame with `ackId` attached, as `emitWithAck` sends it. -/
def mkFrameAck (e : String) (d : List (String × JVal)) (a : String) :
    List (String × JVal) :=
  [("event", JVal.str e), ("data", JVal.obj d), ("ackId", JVal.str a)]

/-- Server-to-client frames carrying exactly the keys `event` and `data`
(in particular never `ackId`). -/
def wellShaped (l : List JVal) : Prop :=
  ∀ f ∈ l, ∃ e d, f = JVal.obj [("event", JVal.str e), ("data", d)]

/-! ## Helper lemmas -/

lemma removeFirst_of_not_mem {x : Nat} : ∀ {l : List Nat}, x ∉ l → removeFirst x l = l
  | [], _ => rfl
  | y :: ys, h => by
      have hy : y ≠ x := fun hxy => h (hxy ▸ List.mem_cons_self y ys)
      have hys : x ∉ ys := fun hm => h (List.mem_cons_of_mem y hm)
      simp [removeFirst, hy, removeFirst_of_not_mem hys]

lemma not_mem_removeFirst {x : Nat} : ∀ {l : List Nat}, l.Nodup → x ∉ removeFirst x l
  | [], _ => by simp [removeFirst]
  | y :: ys, h => by
      rcases List.nodup_cons.mp h with ⟨hy, hys⟩
      by_cases hxy : y = x
      · subst hxy
        simpa [removeFirst] using hy
      · simp only [removeFirst, if_neg hxy]
        intro hmem
        rcases List.mem_cons.mp hmem with h1 | h2
        · exact hxy h1.symm
        · exact not_mem_removeFirst hys h2

lemma removeFirst_append_cons {x : Nat} :
    ∀ {pre : List Nat} (post : List Nat), x ∉ pre →
      removeFirst x (pre ++ x :: post) = pre ++ post
  | [], post, _ => by simp [removeFirst]
  | y :: pre, post, h => by
      have hy : y ≠ x := fun hxy => h (hxy ▸ List.mem_cons_self y pre)
      have hpre : x ∉ pre := fun hm => h (List.mem_cons_of_mem y hm)
      simp [removeFirst, hy, removeFirst_append_cons post hpre]

lemma lookupE_eraseE : ∀ (l : List (String × GoHandler)) (k : String),
    lookupE (eraseE l k) k = none
  | [], _ => rfl
  | (k', h) :: rest, k => by
      by_cases hk : k' = k
      · simpa [eraseE, hk] using lookupE_eraseE rest k
      · simpa [eraseE, lookupE, List.find?, hk] using lookupE_eraseE rest k

lemma find?_setHandlers : ∀ (l : List (String × List TsHandler)) (e : String)
    (hs : List TsHandler),
    (setHandlers l e hs).find? (fun p => p.1 = e) = some (e, hs)
  | [], e, hs => by simp [setHandlers, List.find?]
  | (k, v) :: rest, e, hs => by
      by_cases hk : k = e
      · simp [setHandlers, hk, List.find?]
      · simpa [setHandlers, hk, List.find?] using find?_setHandlers rest e hs

lemma getHandlers_setHandlers (st : TsState) (l : List (String × List TsHandler))
    (e : String) (hs : List TsHandler) :
    getHandlers { st with handlers := setHandlers l e hs } e = hs := by
  simp [getHandlers, find?_setHandlers]

lemma writeTo_cons (c : Client) (rest : List Client) (cid : Nat) (e : String)
    (d : JVal) :
    writeTo (c :: rest) cid e d
      = (if c.id = cid then c.Emit e d else c) :: writeTo rest cid e d := rfl

lemma heapWrittenOf_cons (c : Client) (rest : List Client) (cid : Nat) :
    heapWrittenOf (c :: rest) cid
      = if c.id = cid then some c.written else heapWrittenOf rest cid := by
  by_cases hc : c.id = cid
  · rw [if_pos hc]
    simp [heapWrittenOf, List.find?_cons_of_pos, hc]
  · rw [if_neg hc]
    simp [heapWrittenOf, List.find?_cons_of_neg, hc]

lemma heapWrittenOf_writeTo_ne {cid cid' : Nat} (hne : cid' ≠ cid)
    (e : String) (d : JVal) :
    ∀ h : List Client, heapWrittenOf (writeTo h cid' e d) cid = heapWrittenOf h cid := by
  intro h
  induction h with
  | nil => rfl
  | cons c rest ih =>
    have hid : ((if c.id = cid' then c.Emit e d else c)).id = c.id := by
      split <;> rfl
    rw [writeTo_cons, heapWrittenOf_cons, heapWrittenOf_cons, hid]
    by_cases hc : c.id = cid
    · have hc' : ¬ c.id = cid' := fun hx => hne (hx ▸ hc)
      rw [if_pos hc, if_pos hc, if_neg hc']
    · rw [if_neg hc, if_neg hc]
      exact ih

lemma heapWrittenOf_writeTo_self (cid : Nat) (e : String) (d : JVal) :
    ∀ h : List Client, heapWrittenOf (writeTo h cid e d) cid
      = (heapWrittenOf h cid).map (fun l => l ++ [emittedFrame e d]) := by
  intro h
  induction h with
  | nil => rfl
  | cons c rest ih =>
    have hid : ((if c.id = cid then c.Emit e d else c)).id = c.id := by
      split <;> rfl
    rw [writeTo_cons, heapWrittenOf_cons, heapWrittenOf_cons, hid]
    by_cases hc : c.id = cid
    · rw [if_pos hc, if_pos hc, if_pos hc]
      simp [Client.Emit, emittedFrame]
    · rw [if_neg hc, if_neg hc]
      exact ih

lemma heapWrittenOf_foldl_notmem {cid : Nat} (e : String) (d : JVal) :
    ∀ (ids : List Nat) (h : List Client), cid ∉ ids →
      heapWrittenOf (ids.foldl (fun hh c => writeTo hh c e d) h) cid
        = heapWrittenOf h cid
  | [], _, _ => rfl
  | i :: ids, h, hnm => by
      have hi : i ≠ cid := fun hx => hnm (hx ▸ List.mem_cons_self i ids)
      have hids : cid ∉ ids := fun hm => hnm (List.mem_cons_of_mem i hm)
      simp only [List.foldl_cons]
      rw [heapWrittenOf_foldl_notmem e d ids _ hids, heapWrittenOf_writeTo_ne hi]

lemma heapWrittenOf_foldl_once {cid : Nat} (e : String) (d : JVal)
    (s t : List Nat) (h : List Client) (hs : cid ∉ s) (ht : cid ∉ t) :
    heapWrittenOf ((s ++ cid :: t).foldl (fun hh c => writeTo hh c e d) h) cid
      = (heapWrittenOf h cid).map (fun l => l ++ [emittedFrame e d]) := by
  rw [List.foldl_append, List.foldl_cons]
  rw [heapWrittenOf_foldl_notmem e d t _ ht, heapWrittenOf_writeTo_self,
      heapWrittenOf_foldl_notmem e d s h hs]

lemma lookupJ_mkFrame_event (e : String) (d : List (String × JVal)) :
    lookupJ (mkFrame e d) "event" = some (JVal.str e) := rfl

lemma lookupJ_mkFrame_data (e : String) (d : List (String × JVal)) :
    lookupJ (mkFrame e d) "data" = some (JVal.obj d) := rfl

lemma lookupJ_mkFrame_ackId (e : String) (d : List (String × JVal)) :
    lookupJ (mkFrame e d) "ackId" = none := rfl

lemma lookupJ_mkFrameAck_event (e : String) (d : List (String × JVal)) (a : String) :
    lookupJ (mkFrameAck e d a) "event" = some (JVal.str e) := rfl

lemma lookupJ_mkFrameAck_data (e : String) (d : List (String × JVal)) (a : String) :
    lookupJ (mkFrameAck e d a) "data" = some (JVal.obj d) := rfl

lemma lookupJ_mkFrameAck_ackId (e : String) (d : List (String × JVal)) (a : String) :
    lookupJ (mkFrameAck e d a) "ackId" = some (JVal.str a) := rfl

lemma handleClientData_plain_noack (fuel : Nat) (c : Client) (e : String)
    (d : List (String × JVal)) (b : HandlerBody)
    (hl : lookupE c.events e = some (GoHandler.plain b)) (hr : b.retrigger = none) :
    handleClientData (fuel + 1) c (mkFrame e d)
      = .ok { c with invoked := c.invoked ++ [(b.hid, JVal.obj d)] } := by
  simp only [handleClientData, lookupJ_mkFrame_event, lookupJ_mkFrame_data,
    lookupJ_mkFrame_ackId, hl, hr, if_true]

lemma handleClientData_nohandler (fuel : Nat) (c : Client) (e : String)
    (d : List (String × JVal)) (hl : lookupE c.events e = none) :
    handleClientData (fuel + 1) c (mkFrame e d) = .ok c := by
  simp only [handleClientData, lookupJ_mkFrame_event, lookupJ_mkFrame_data,
    lookupJ_mkFrame_ackId, hl, if_true]

lemma handleClientData_plain_ack (fuel : Nat) (c : Client) (e : String)
    (d : List (String × JVal)) (b : HandlerBody) (a : String)
    (hl : lookupE c.events e = some (GoHandler.plain b)) (hr : b.retrigger = none)
    (ha : a ≠ "") :
    handleClientData (fuel + 1) c (mkFrameAck e d a)
      = .ok (Client.Emit { c with invoked := c.invoked ++ [(b.hid, JVal.obj d)] }
               (e ++ "@ack:" ++ a) (JVal.obj [("result", b.result)])) := by
  simp only [handleClientData, lookupJ_mkFrameAck_event, lookupJ_mkFrameAck_data,
    lookupJ_mkFrameAck_ackId, hl, hr, if_neg ha]

lemma handleClientData_plain_ackEmpty (fuel : Nat) (c : Client) (e : String)
    (d : List (String × JVal)) (b : HandlerBody)
    (hl : lookupE c.events e = some (GoHandler.plain b)) (hr : b.retrigger = none) :
    handleClientData (fuel + 1) c (mkFrameAck e d "")
      = .ok { c with invoked := c.invoked ++ [(b.hid, JVal.obj d)] } := by
  simp only [handleClientData, lookupJ_mkFrameAck_event, lookupJ_mkFrameAck_data,
    lookupJ_mkFrameAck_ackId, hl, hr]
  simp

lemma handleClientData_once (fuel : Nat) (c : Client) (e : String)
    (d : List (String × JVal)) (b : HandlerBody)
    (hl : lookupE c.events e = some (GoHandler.onceWrap e b))
    (hr : b.retrigger = none ∨ ∃ d', b.retrigger = some (e, d')) :
    handleClientData (fuel + 2) c (mkFrame e d)
      = .ok { c with events := eraseE c.events e
                     invoked := c.invoked ++ [(b.hid, JVal.obj d)] } := by
  rcases hr with hr | ⟨d', hr⟩
  · simp only [handleClientData, lookupJ_mkFrame_event, lookupJ_mkFrame_data,
      lookupJ_mkFrame_ackId, hl, hr, if_true]
  · have hnone : lookupE (eraseE c.events e) e = none := lookupE_eraseE _ _
    simp only [handleClientData, lookupJ_mkFrame_event, lookupJ_mkFrame_data,
      lookupJ_mkFrame_ackId, hl, hr, hnone, if_true]

lemma tsStep_handshake_fresh (fuel : Nat) (st : TsState) (d : JVal)
    (h : st.clientId = "") :
    tsStep (fuel + 1) st (.msg "#handshake" d)
      = { st with clientId := jClientId d
                  connectedCalls := st.connectedCalls + 1 } := by
  simp [tsStep, h]

lemma tsStep_handshake_dup (fuel : Nat) (st : TsState) (d : JVal)
    (h : st.clientId ≠ "") :
    tsStep (fuel + 1) st (.msg "#handshake" d)
      = { st with handshakeErrors := st.handshakeErrors + 1 } := by
  simp [tsStep, h]

lemma tsStep_msg_notHandshake (fuel : Nat) (st : TsState) (e : String) (d : JVal)
    (he : e ≠ "#handshake") :
    tsStep (fuel + 1) st (.msg e d) = tsStep fuel st (.loop e d 0) := by
  simp [tsStep, he]

lemma tsStep_loop_none (fuel : Nat) (st : TsState) (e : String) (d : JVal) (i : Nat)
    (h : (getHandlers st e).get? i = none) :
    tsStep (fuel + 1) st (.loop e d i) = st := by
  simp only [tsStep, h]

lemma tsStep_loop_some (fuel : Nat) (st : TsState) (e : String) (d : JVal) (i : Nat)
    (hd : TsHandler) (h : (getHandlers st e).get? i = some hd) :
    tsStep (fuel + 1) st (.loop e d i)
      = tsStep fuel (tsStep fuel st (.run e d hd)) (.loop e d (i + 1)) := by
  simp only [tsStep, h]

lemma tsStep_run_once_none (fuel : Nat) (st : TsState) (e : String) (d : JVal)
    (b : TsBody) (hr : b.redispatch = none) :
    tsStep (fuel + 1) st (.run e d (TsHandler.onceH b))
      = tsOff { st with invoked := st.invoked ++ [(b.uid, d)] } e b.uid := by
  simp [tsStep, hr]

lemma tsStep_run_once_redispatch (fuel : Nat) (st : TsState) (e : String) (d : JVal)
    (b : TsBody) (e' : String) (d' : JVal) (hr : b.redispatch = some (e', d')) :
    tsStep (fuel + 1) st (.run e d (TsHandler.onceH b))
      = tsOff (tsStep fuel { st with invoked := st.invoked ++ [(b.uid, d)] }
                 (.msg e' d')) e b.uid := by
  simp [tsStep, hr]

lemma getHandlers_invoked (st : TsState) (x : List (Nat × JVal)) (e : String) :
    getHandlers { st with invoked := x } e = getHandlers st e := rfl

lemma getHandlers_eq (st : TsState) (l : List (String × List TsHandler))
    (e : String) (hs : List TsHandler) (h : st.handlers = setHandlers l e hs) :
    getHandlers st e = hs := by
  unfold getHandlers
  rw [h, find?_setHandlers]

lemma tsOff_once_single (st : TsState) (e : String) (b : TsBody) (x : List (Nat × JVal))
    (hh : getHandlers st e = [TsHandler.onceH b]) :
    tsOff { st with invoked := x } e b.uid
      = { st with handlers := setHandlers st.handlers e [], invoked := x } := by
  have h1 : getHandlers { st with invoked := x } e = [TsHandler.onceH b] := by
    rw [getHandlers_invoked, hh]
  simp [tsOff, h1, removeHandler, TsHandler.buid]

/-- Dispatching one frame to a state whose only handler for `e` is a `once`
wrapper (no re-entrant redispatch): the handler fires once and its entry is
removed afterwards. -/
lemma tsStep_once_single (fuel : Nat) (st : TsState) (e : String) (d : JVal)
    (b : TsBody) (he : e ≠ "#handshake")
    (hh : getHandlers st e = [TsHandler.onceH b]) (hr : b.redispatch = none) :
    tsStep (fuel + 3) st (.msg e d)
      = { st with handlers := setHandlers st.handlers e []
                  invoked := st.invoked ++ [(b.uid, d)] } := by
  have h0 : (getHandlers st e).get? 0 = some (TsHandler.onceH b) := by rw [hh]; rfl
  rw [tsStep_msg_notHandshake _ _ _ _ he, tsStep_loop_some _ _ _ _ _ _ h0,
      tsStep_run_once_none _ _ _ _ _ hr, tsOff_once_single _ _ _ _ hh]
  apply tsStep_loop_none
  rw [getHandlers_eq _ st.handlers e [] rfl]
  rfl

/-- After the `once` handler has been consumed, a second identical frame
produces no invocation and leaves the state unchanged. -/
lemma tsStep_once_consumed (fuel : Nat) (st : TsState) (e : String) (d : JVal)
    (he : e ≠ "#handshake") (hh : getHandlers st e = []) :
    tsStep (fuel + 2) st (.msg e d) = st := by
  rw [tsStep_msg_notHandshake _ _ _ _ he]
  apply tsStep_loop_none
  rw [hh]
  rfl

lemma lookupE_insertE : ∀ (l : List (String × GoHandler)) (k : String) (h : GoHandler),
    lookupE (insertE l k h) k = some h
  | [], k, h => by simp [insertE, lookupE, List.find?]
  | (k', h') :: rest, k, h => by
      by_cases hk : k' = k
      · simp [insertE, hk, lookupE, List.find?]
      · simpa [insertE, hk, lookupE, List.find?] using lookupE_insertE rest k h

lemma Leave_members (cid : Nat) (r : Room) :
    (Leave cid r).members = removeFirst cid r.members := by
  simp only [Leave]
  split <;> rfl

lemma Leave_leftCalls (cid : Nat) (r : Room) :
    (Leave cid r).leftCalls
      = if r.leftSet then r.leftCalls ++ [cid] else r.leftCalls := by
  simp only [Leave]
  split <;> rfl

/-! ## Claim theorems -/

/-- C1: the spec requires the server to deliver a `#handshake` frame with
`{clientId}` as the first message on every newly accepted connection, before
any user-registered handler fires.  The accept path of `Handle` writes no
frame at all on the new connection: the freshly created client's write
history is empty (the library never emits `#handshake` anywhere), even
though the bundled TypeScript client and the server's own doc comment
require a handshake before `connected`. -/
theorem accept_path_writes_no_handshake_frame (w : World) :
    ((acceptClient w).2).written = [] ∧ ((acceptClient w).2).events = []
      ∧ (acceptClient w).1.hub = w.hub ++ [(acceptClient w).2.id] :=
  ⟨rfl, rfl, rfl⟩

/-- Room used by the C3 counterexample: peer 5 is not a member, the on-left
callback is registered. -/
def rDemo : Room :=
  { ref := 0, roomId := "lobby", members := [3], joinedSet := false
    leftSet := true, joinedCalls := [], leftCalls := [] }

/-- C3 counterexample: `Leave` of a non-member is not silent — the
membership is unchanged but the on-left callback still fires. -/
theorem leave_nonmember_fires_left_callback :
    (5 ∉ rDemo.members) ∧ (Leave 5 rDemo).members = rDemo.members
      ∧ rDemo.leftCalls = [] ∧ (Leave 5 rDemo).leftCalls = [5] :=
  ⟨by decide, rfl, rfl, rfl⟩

/-- C3 (amended): `leave` removes the first matching membership entry (the
membership is unchanged when the peer is not a member), and then invokes
the on-left callback whenever it is set — also for non-members. -/
theorem leave_removes_first_and_always_fires_callback (r : Room) (cid : Nat)
    (pre post : List Nat) :
    (cid ∉ r.members → (Leave cid r).members = r.members)
    ∧ (r.members = pre ++ cid :: post → cid ∉ pre →
        (Leave cid r).members = pre ++ post)
    ∧ ((Leave cid r).leftCalls
        = if r.leftSet then r.leftCalls ++ [cid] else r.leftCalls) := by
  refine ⟨fun h => ?_, fun hm hp => ?_, Leave_leftCalls cid r⟩
  · rw [Leave_members, removeFirst_of_not_mem h]
  · rw [Leave_members, hm, removeFirst_append_cons post hp]

/-- C9: `CreateRoom` performs no uniqueness check — creating the same name
twice yields two distinct Room objects (different `ref`s), both stored;
`GetRoom` then returns the first one created (when no older room already
bears the name), and `GetRoom` of an unused name returns `none`. -/
theorem createRoom_duplicates_getRoom_first (w : World) (name : String) :
    ((CreateRoom w name).2).ref ≠ ((CreateRoom (CreateRoom w name).1 name).2).ref
    ∧ (CreateRoom w name).2 ∈ (CreateRoom (CreateRoom w name).1 name).1.rooms
    ∧ (CreateRoom (CreateRoom w name).1 name).2
        ∈ (CreateRoom (CreateRoom w name).1 name).1.rooms
    ∧ ((∀ r ∈ w.rooms, r.roomId ≠ name) →
        GetRoom (CreateRoom (CreateRoom w name).1 name).1 name
          = some (CreateRoom w name).2)
    ∧ (∀ n, (∀ r ∈ w.rooms, r.roomId ≠ n) → GetRoom w n = none) := by
  refine ⟨by simp [CreateRoom], by simp [CreateRoom], by simp [CreateRoom],
          fun hfresh => ?_, fun n hfresh => ?_⟩
  · have h1 : w.rooms.find? (fun r => r.roomId = name) = none :=
      List.find?_eq_none.mpr (fun r hr => by simp [hfresh r hr])
    simp [GetRoom, CreateRoom, List.find?_append, h1, List.find?]
  · exact List.find?_eq_none.mpr (fun r hr => by simp [hfresh r hr])

/-- Room and world used by the C2 counterexample: clients 0 and 1 are both
live and both members of `"lobby"`. -/
def lobbyDemo : Room :=
  { ref := 0, roomId := "lobby", members := [0, 1], joinedSet := false
    leftSet := false, joinedCalls := [], leftCalls := [] }

def wDemo : World :=
  { heap := [createClient 0, createClient 1], hub := [0, 1]
    rooms := [lobbyDemo], nextId := 2, nextRef := 1 }

/-- C2 counterexample: after client 0's receive loop runs its disconnect
cleanup, the client is gone from the Hub's live list but is still a member
of the room, and a subsequent `Room.Emit` still writes the broadcast frame
to its (closed) connection. -/
theorem disconnect_cleanup_leaves_room_membership :
    (0 ∉ (disconnectCleanup wDemo 0).hub)
    ∧ GetRoom (disconnectCleanup wDemo 0) "lobby" = some lobbyDemo
    ∧ (0 ∈ lobbyDemo.members)
    ∧ writtenOf (roomEmit (disconnectCleanup wDemo 0) lobbyDemo "ping" (JVal.obj [])) 0
        = some [emittedFrame "ping" (JVal.obj [])]
    ∧ writtenOf (disconnectCleanup wDemo 0) 0 = some [] :=
  ⟨by decide, rfl, by decide, rfl, rfl⟩

/-- C2 (amended): the receive-loop cleanup removes the Peer from the Hub's
live list only; every Room keeps its membership entry.  Consequently a later
Hub broadcast no longer writes to the dead Peer, but a Room broadcast for a
room it belonged to still does. -/
theorem disconnect_cleanup_hub_only (w : World) (cid : Nat) (e : String) (d : JVal)
    (hnodup : w.hub.Nodup) :
    (cid ∉ (disconnectCleanup w cid).hub)
    ∧ (disconnectCleanup w cid).rooms = w.rooms
    ∧ writtenOf (hubEmit (disconnectCleanup w cid) e d) cid
        = writtenOf (disconnectCleanup w cid) cid
    ∧ (∀ r ∈ w.rooms, cid ∈ r.members → r.members.Nodup →
        writtenOf (roomEmit (disconnectCleanup w cid) r e d) cid
          = (writtenOf (disconnectCleanup w cid) cid).map
              (fun l => l ++ [emittedFrame e d])) := by
  have hnm : cid ∉ (disconnectCleanup w cid).hub := not_mem_removeFirst hnodup
  refine ⟨hnm, rfl, ?_, ?_⟩
  · exact heapWrittenOf_foldl_notmem e d _ _ hnm
  · intro r _ hmem hnd
    rcases List.append_of_mem hmem with ⟨s, t, hst⟩
    rw [hst] at hnd
    rcases List.nodup_append.mp hnd with ⟨_, hct, hdisj⟩
    have hcs : cid ∉ s := fun hx => hdisj hx (List.mem_cons_self cid t)
    have hcti : cid ∉ t := fun hx => (List.nodup_cons.mp hct).1 hx
    show writtenOf (roomEmit (disconnectCleanup w cid) r e d) cid = _
    unfold roomEmit writtenOf
    rw [hst]
    exact heapWrittenOf_foldl_once e d s t _ hcs hcti

/-- C4: a frame `{event: e, data: d, ackId: a}` with `a` non-empty,
dispatched to a Peer whose handler for `e` returns `b.result`, produces
exactly one reply frame `{event: e@ack:a, data: {result: b.result}}` written
back on the same connection; with `ackId` absent or empty, nothing is
written. -/
theorem ack_roundtrip (fuel : Nat) (c : Client) (e : String)
    (d : List (String × JVal)) (b : HandlerBody) (a : String)
    (hl : lookupE c.events e = some (GoHandler.plain b)) (hr : b.retrigger = none)
    (ha : a ≠ "") :
    handleClientData (fuel + 1) c (mkFrameAck e d a)
      = .ok { c with
          invoked := c.invoked ++ [(b.hid, JVal.obj d)]
          written := c.written ++ [emittedFrame (e ++ "@ack:" ++ a)
                       (JVal.obj [("result", b.result)])] }
    ∧ handleClientData (fuel + 1) c (mkFrame e d)
        = .ok { c with invoked := c.invoked ++ [(b.hid, JVal.obj d)] }
    ∧ handleClientData (fuel + 1) c (mkFrameAck e d "")
        = .ok { c with invoked := c.invoked ++ [(b.hid, JVal.obj d)] } := by
  refine ⟨?_, handleClientData_plain_noack fuel c e d b hl hr,
          handleClientData_plain_ackEmpty fuel c e d b hl hr⟩
  rw [handleClientData_plain_ack fuel c e d b a hl hr ha]
  rfl

/-- C6: a Peer that registered a handler for `e` via `On` and receives
`{event: e, data: d}` invokes exactly that handler exactly once, with that
Peer and `d`; nothing else changes (no other handler fires, nothing is
written).  A frame whose event has no registered handler is dropped
silently: the dispatch succeeds and the Peer is unchanged.  `On` itself
binds the handler under `e`. -/
theorem dispatch_invokes_handler_exactly_once (fuel : Nat) (c : Client)
    (e : String) (d : List (String × JVal)) (b : HandlerBody) :
    (lookupE c.events e = some (GoHandler.plain b) → b.retrigger = none →
      handleClientData (fuel + 1) c (mkFrame e d)
        = .ok { c with invoked := c.invoked ++ [(b.hid, JVal.obj d)] })
    ∧ (lookupE c.events e = none →
        handleClientData (fuel + 1) c (mkFrame e d) = .ok c)
    ∧ lookupE (Client.On c e b).events e = some (GoHandler.plain b) :=
  ⟨fun hl hr => handleClientData_plain_noack fuel c e d b hl hr,
   fun hl => handleClientData_nohandler fuel c e d hl,
   lookupE_insertE c.events e (GoHandler.plain b)⟩

/-- C8: a decoded frame whose `event` field is missing or not a string, or
whose `data` field is missing or not a key-value object, makes the frame
handling step fail unrecoverably (the unchecked type assertion panics)
instead of reporting and dropping the frame. -/
theorem malformed_frame_panics (fuel : Nat) (c : Client)
    (data : List (String × JVal)) :
    ((∀ s, lookupJ data "event" ≠ some (JVal.str s)) →
       handleClientData (fuel + 1) c data = .error .badEvent)
    ∧ (∀ e, lookupJ data "event" = some (JVal.str e) →
        (∀ fs, lookupJ data "data" ≠ some (JVal.obj fs)) →
        handleClientData (fuel + 1) c data = .error .badData) := by
  constructor
  · intro hbad
    rcases hev : lookupJ data "event" with _ | v
    · simp [handleClientData, hev]
    · cases v with
      | str s => exact absurd hev (hbad s)
      | num n => simp [handleClientData, hev]
      | bool b => simp [handleClientData, hev]
      | null => simp [handleClientData, hev]
      | obj fs => simp [handleClientData, hev]
      | arr xs => simp [handleClientData, hev]
  · intro e hev hbad
    rcases hdt : lookupJ data "data" with _ | v
    · simp [handleClientData, hev, hdt]
    · cases v with
      | obj fs => exact absurd hdt (hbad fs)
      | str s => simp [handleClientData, hev, hdt]
      | num n => simp [handleClientData, hev, hdt]
      | bool b => simp [handleClientData, hev, hdt]
      | null => simp [handleClientData, hev, hdt]
      | arr xs => simp [handleClientData, hev, hdt]

/-- Handler body used by the C5 counterexample: on invocation it re-triggers
dispatch of the same event from within itself. -/
def onceLoopBody : TsBody := { uid := 7, redispatch := some ("ev", JVal.null) }

/-- Client-side state with a single `once` registration for `"ev"`. -/
def tsOnceDemo : TsState := tsOnce emptyTs "ev" onceLoopBody

/-- C5 counterexample: on the TypeScript client the `once` wrapper removes
itself only *after* the wrapped handler returns, so when the handler
re-triggers the same event from within itself the wrapper is still
registered and fires again — here the single registered once-handler (uid 7)
fires three times during the dispatch of one frame. -/
theorem client_once_refires_on_reentrant_dispatch :
    getHandlers tsOnceDemo "ev" = [TsHandler.onceH onceLoopBody]
    ∧ (tsStep 9 tsOnceDemo (.msg "ev" JVal.null)).invoked
        = [(7, JVal.null), (7, JVal.null), (7, JVal.null)] :=
  ⟨rfl, rfl⟩

/-- C5 (amended): on the server, the `Once` wrapper deletes its registry
entry *before* invoking the listener, so the listener fires exactly once
even when it re-triggers the same event from within itself, and a second
identical frame afterwards produces no invocation.  On the client, the
`once` wrapper removes itself only *after* the handler returns: once a
dispatch has completed, the entry is gone and a second identical frame
produces no invocation — but a re-entrant dispatch from within the handler
itself fires it again (see the counterexample). -/
theorem once_fires_once (fuel : Nat) :
    (∀ (c : Client) (e : String) (d : List (String × JVal)) (b : HandlerBody),
       lookupE c.events e = some (GoHandler.onceWrap e b) →
       (b.retrigger = none ∨ ∃ d', b.retrigger = some (e, d')) →
       handleClientData (fuel + 2) c (mkFrame e d)
         = .ok { c with events := eraseE c.events e
                        invoked := c.invoked ++ [(b.hid, JVal.obj d)] }
       ∧ handleClientData (fuel + 1)
           { c with events := eraseE c.events e
                    invoked := c.invoked ++ [(b.hid, JVal.obj d)] }
           (mkFrame e d)
         = .ok { c with events := eraseE c.events e
                        invoked := c.invoked ++ [(b.hid, JVal.obj d)] })
    ∧ (∀ (c : Client) (e : String) (b : HandlerBody),
        lookupE (Client.Once c e b).events e = some (GoHandler.onceWrap e b))
    ∧ (∀ (st : TsState) (e : String) (d : JVal) (b : TsBody),
        e ≠ "#handshake" → getHandlers st e = [TsHandler.onceH b] →
        b.redispatch = none →
        tsStep (fuel + 3) st (.msg e d)
          = { st with handlers := setHandlers st.handlers e []
                      invoked := st.invoked ++ [(b.uid, d)] }
        ∧ tsStep (fuel + 2)
            { st with handlers := setHandlers st.handlers e []
                      invoked := st.invoked ++ [(b.uid, d)] } (.msg e d)
          = { st with handlers := setHandlers st.handlers e []
                      invoked := st.invoked ++ [(b.uid, d)] }) := by
  refine ⟨fun c e d b hl hr => ⟨handleClientData_once fuel c e d b hl hr, ?_⟩,
          fun c e b => lookupE_insertE c.events e (GoHandler.onceWrap e b),
          fun st e d b he hh hr => ⟨tsStep_once_single fuel st e d b he hh hr, ?_⟩⟩
  · exact handleClientData_nohandler fuel _ e d (lookupE_eraseE c.events e)
  · exact tsStep_once_consumed fuel _ e d he (getHandlers_eq _ st.handlers e [] rfl)

/-- Client state used by the C7 counterexample: handshake completed, id
assigned, socket open. -/
def tsConnectedDemo : TsState := { emptyTs with clientId := "abc" }

/-- C7 counterexample: the `onClose` transition invokes the disconnected
hook and schedules the reconnect, but does NOT clear the identity — right
after the transport closes, the client is disconnected yet `id` still
returns the stale server-assigned value `"abc"`, not the empty string. -/
theorem id_stale_after_close :
    (tsOnClose tsConnectedDemo).socketOpen = false
    ∧ (tsOnClose tsConnectedDemo).reconnectScheduled = true
    ∧ (tsOnClose tsConnectedDemo).disconnectedCalls = 1
    ∧ (tsOnClose tsConnectedDemo).clientId = "abc" :=
  ⟨rfl, rfl, rfl, rfl⟩

/-- C7 (amended): `onClose` preserves the identity (clearing happens only
when the scheduled `connect()` runs, which resets it to the empty string),
so `id` returns the stale value during the disconnect window; after a
handshake frame carrying `clientId` arrives on a fresh connection, `id`
returns the server-provided value and the connected hook has fired. -/
theorem id_cleared_only_on_reconnect (st : TsState) (fuel : Nat) (s : String) :
    (tsOnClose st).clientId = st.clientId
    ∧ (tsOnClose st).reconnectScheduled = true
    ∧ (tsConnect st).clientId = ""
    ∧ (st.clientId = "" →
        (tsStep (fuel + 1) st
            (.msg "#handshake" (JVal.obj [("clientId", JVal.str s)]))).clientId = s
        ∧ (tsStep (fuel + 1) st
            (.msg "#handshake" (JVal.obj [("clientId", JVal.str s)]))).connectedCalls
            = st.connectedCalls + 1) := by
  refine ⟨rfl, rfl, rfl, fun h => ?_⟩
  rw [tsStep_handshake_fresh fuel st _ h]
  exact ⟨rfl, rfl⟩

lemma wellShaped_emit (c : Client) (e : String) (d : JVal)
    (h : wellShaped c.written) : wellShaped (Client.Emit c e d).written := by
  intro f hf
  simp only [Client.Emit] at hf
  rcases List.mem_append.mp hf with hf | hf
  · exact h f hf
  · rcases List.mem_singleton.mp hf with rfl
    exact ⟨e, d, rfl⟩

/-- C10: every frame the server writes through a Peer's `Emit` — the only
write path, used by direct emits, Hub/Room broadcasts and the synthetic
acknowledgement replies of the dispatch step — is a payload with exactly
the keys `event` and `data` (never an `ackId` key), so a server-initiated
frame can never request an acknowledgement. -/
theorem server_frames_carry_exactly_event_and_data :
    (∀ (c : Client) (e : String) (d : JVal), wellShaped c.written →
        wellShaped (Client.Emit c e d).written)
    ∧ (∀ (fuel : Nat) (c : Client) (data : List (String × JVal)) (c' : Client),
        handleClientData fuel c data = .ok c' →
        wellShaped c.written → wellShaped c'.written) := by
  refine ⟨fun c e d h => wellShaped_emit c e d h, ?_⟩
  intro fuel
  induction fuel with
  | zero =>
      intro c data c' h
      simp [handleClientData] at h
  | succ n ih =>
      intro c data c' h hws
      simp only [handleClientData] at h
      split at h
      case _ eventName heqEv =>
        split at h
        case _ eventData heqDt =>
          split at h
          case _ perr hack => exact absurd h (by simp)
          case _ ackId hack =>
            split at h
            case _ hlk =>
              injection h with hh
              subst hh
              exact hws
            case _ hnd hlk =>
              cases hnd with
              | plain b =>
                dsimp only at h
                rcases hre : b.retrigger with _ | ⟨e', d'⟩ <;> rw [hre] at h <;>
                  dsimp only at h
                · split at h <;> injection h with hh <;> subst hh
                  · exact hws
                  · exact wellShaped_emit _ _ _ hws
                · split at h
                  case _ perr heq => exact absurd h (by simp)
                  case _ c3 heq =>
                    have hc3 : wellShaped c3.written := ih _ _ _ heq hws
                    split at h <;> injection h with hh <;> subst hh
                    · exact hc3
                    · exact wellShaped_emit _ _ _ hc3
              | onceWrap nm b =>
                dsimp only at h
                rcases hre : b.retrigger with _ | ⟨e', d'⟩ <;> rw [hre] at h <;>
                  dsimp only at h
                · split at h <;> injection h with hh <;> subst hh
                  · exact hws
                  · exact wellShaped_emit _ _ _ hws
                · split at h
                  case _ perr heq => exact absurd h (by simp)
                  case _ c3 heq =>
                    have hc3 : wellShaped c3.written := ih _ _ _ heq hws
                    split at h <;> injection h with hh <;> subst hh
                    · exact hc3
                    · exact wellShaped_emit _ _ _ hc3
        case _ heqDt => exact absurd h (by simp)
      case _ heqEv => exact absurd h (by simp)

/-! ## Witnesses: the claim theorems applied at concrete inputs -/

/-- Handler returning `5`, no re-entrant trigger. -/
def bDemo : HandlerBody := { hid := "h", retrigger := none, result := JVal.num 5 }

/-- A fresh Peer with `bDemo` registered (via `On`) for event `"x"`. -/
def cDemo : Client := Client.On (createClient 0) "x" bDemo

/-- Witness for the amended C3 theorem at room `rDemo`, member 3. -/
theorem leave_removes_first_witness :
    rDemo.members = [] ++ 3 :: [] ∧ (3 : Nat) ∉ ([] : List Nat)
      ∧ (Leave 3 rDemo).members = [] ++ [] :=
  ⟨rfl, by decide,
   (leave_removes_first_and_always_fires_callback rDemo 3 [] []).2.1 rfl (by decide)⟩

/-- Empty server world, used as witness input. -/
def w0 : World := { heap := [], hub := [], rooms := [], nextId := 0, nextRef := 0 }

/-- Witness for the C9 theorem on the empty world and name `"a"`. -/
theorem createRoom_duplicates_witness :
    GetRoom (CreateRoom (CreateRoom w0 "a").1 "a").1 "a" = some (CreateRoom w0 "a").2
      ∧ GetRoom w0 "b" = none :=
  ⟨(createRoom_duplicates_getRoom_first w0 "a").2.2.2.1 (by simp [w0]),
   (createRoom_duplicates_getRoom_first w0 "a").2.2.2.2 "b" (by simp [w0])⟩

/-- Witness for the amended C2 theorem at `wDemo`, client 0, room `lobbyDemo`. -/
theorem disconnect_cleanup_hub_only_witness :
    wDemo.hub.Nodup ∧ lobbyDemo ∈ wDemo.rooms ∧ (0 ∈ lobbyDemo.members)
    ∧ writtenOf (hubEmit (disconnectCleanup wDemo 0) "x" JVal.null) 0
        = writtenOf (disconnectCleanup wDemo 0) 0
    ∧ writtenOf (roomEmit (disconnectCleanup wDemo 0) lobbyDemo "x" JVal.null) 0
        = (writtenOf (disconnectCleanup wDemo 0) 0).map
            (fun l => l ++ [emittedFrame "x" JVal.null]) :=
  ⟨by decide, by simp [wDemo], by decide,
   (disconnect_cleanup_hub_only wDemo 0 "x" JVal.null (by decide)).2.2.1,
   (disconnect_cleanup_hub_only wDemo 0 "x" JVal.null (by decide)).2.2.2
     lobbyDemo (by simp [wDemo]) (by decide) (by decide)⟩

/-- Witness for the C4 theorem at `cDemo` with frame
`{event:"x", data:{}, ackId:"abc"}`. -/
theorem ack_roundtrip_witness :
    lookupE cDemo.events "x" = some (GoHandler.plain bDemo)
    ∧ handleClientData 1 cDemo (mkFrameAck "x" [] "abc")
        = .ok { cDemo with
            invoked := cDemo.invoked ++ [("h", JVal.obj [])]
            written := cDemo.written
              ++ [emittedFrame ("x" ++ "@ack:" ++ "abc")
                    (JVal.obj [("result", JVal.num 5)])] }
    ∧ handleClientData 1 cDemo (mkFrame "x" []) 
        = .ok { cDemo with invoked := cDemo.invoked ++ [("h", JVal.obj [])] } :=
  ⟨rfl,
   (ack_roundtrip 0 cDemo "x" [] bDemo "abc" rfl rfl (by decide)).1,
   (ack_roundtrip 0 cDemo "x" [] bDemo "abc" rfl rfl (by decide)).2.1⟩

/-- Witness for the C6 theorem: registered event dispatches, unknown event
is dropped silently. -/
theorem dispatch_exactly_once_witness :
    handleClientData 1 cDemo (mkFrame "x" [])
      = .ok { cDemo with invoked := cDemo.invoked ++ [("h", JVal.obj [])] }
    ∧ handleClientData 1 (createClient 0) (mkFrame "y" []) = .ok (createClient 0) :=
  ⟨(dispatch_invokes_handler_exactly_once 0 cDemo "x" [] bDemo).1 rfl rfl,
   (dispatch_invokes_handler_exactly_once 0 (createClient 0) "y" [] bDemo).2.1 rfl⟩

/-- Witness for the C8 theorem: a frame without `event`, and a frame with a
string `event` but no `data`. -/
theorem malformed_frame_panics_witness :
    handleClientData 1 (createClient 0) [("data", JVal.obj [])] = .error .badEvent
    ∧ handleClientData 1 (createClient 0) [("event", JVal.str "x")]
        = .error .badData :=
  ⟨(malformed_frame_panics 0 (createClient 0) [("data", JVal.obj [])]).1
     (fun _ h => Option.noConfusion h),
   (malformed_frame_panics 0 (createClient 0) [("event", JVal.str "x")]).2
     "x" rfl (fun _ h => Option.noConfusion h)⟩

/-- A fresh Peer with `bDemo` registered via `Once` for `"ev"`. -/
def cOnceDemo : Client := Client.Once (createClient 0) "ev" bDemo

/-- State of `cOnceDemo` after its once-handler has fired. -/
def cOnceAfter : Client :=
  { cOnceDemo with events := eraseE cOnceDemo.events "ev"
                   invoked := cOnceDemo.invoked ++ [("h", JVal.obj [])] }

/-- One-shot client handler without re-entrant trigger. -/
def bTsDemo : TsBody := { uid := 1, redispatch := none }

/-- Client-side state with `bTsDemo` registered via `once` for `"ev"`. -/
def tsOnceDemo2 : TsState := tsOnce emptyTs "ev" bTsDemo

/-- Witness for the amended C5 theorem: the Go once-handler fires once and
a second identical frame does nothing; the TS once-handler's entry is gone
after a completed dispatch and a second frame does nothing. -/
theorem once_fires_once_witness :
    handleClientData 2 cOnceDemo (mkFrame "ev" []) = .ok cOnceAfter
    ∧ handleClientData 1 cOnceAfter (mkFrame "ev" []) = .ok cOnceAfter
    ∧ tsStep 3 tsOnceDemo2 (.msg "ev" JVal.null)
        = { tsOnceDemo2 with
            handlers := setHandlers tsOnceDemo2.handlers "ev" []
            invoked := tsOnceDemo2.invoked ++ [(1, JVal.null)] }
    ∧ tsStep 2
        { tsOnceDemo2 with
          handlers := setHandlers tsOnceDemo2.handlers "ev" []
          invoked := tsOnceDemo2.invoked ++ [(1, JVal.null)] } (.msg "ev" JVal.null)
        = { tsOnceDemo2 with
            handlers := setHandlers tsOnceDemo2.handlers "ev" []
            invoked := tsOnceDemo2.invoked ++ [(1, JVal.null)] } :=
  ⟨((once_fires_once 0).1 cOnceDemo "ev" [] bDemo rfl (Or.inl rfl)).1,
   ((once_fires_once 0).1 cOnceDemo "ev" [] bDemo rfl (Or.inl rfl)).2,
   ((once_fires_once 0).2.2 tsOnceDemo2 "ev" JVal.null bTsDemo (by decide) rfl rfl).1,
   ((once_fires_once 0).2.2 tsOnceDemo2 "ev" JVal.null bTsDemo (by decide) rfl rfl).2⟩

/-- Witness for the amended C7 theorem on the fresh client state. -/
theorem id_cleared_only_on_reconnect_witness :
    (tsOnClose emptyTs).clientId = emptyTs.clientId
    ∧ (tsConnect emptyTs).clientId = ""
    ∧ (tsStep 1 emptyTs
        (.msg "#handshake" (JVal.obj [("clientId", JVal.str "abc")]))).clientId
        = "abc" :=
  ⟨(id_cleared_only_on_reconnect emptyTs 0 "abc").1,
   (id_cleared_only_on_reconnect emptyTs 0 "abc").2.2.1,
   ((id_cleared_only_on_reconnect emptyTs 0 "abc").2.2.2 rfl).1⟩

/-- `cDemo` after the ack round-trip of the C4 witness. -/
def cAckAfter : Client :=
  { cDemo with invoked := [("h", JVal.obj [])]
               written := [emittedFrame "x@ack:abc"
                             (JVal.obj [("result", JVal.num 5)])] }

/-- Witness for the C10 theorem: shape preservation evaluated on the
concrete ack round-trip. -/
theorem server_frames_wellshaped_witness :
    wellShaped cDemo.written ∧ wellShaped cAckAfter.written :=
  ⟨fun f hf => absurd hf (by simp [cDemo, createClient, Client.On]),
   (server_frames_carry_exactly_event_and_data).2 1 cDemo (mkFrameAck "x" [] "abc")
     cAckAfter rfl
     (fun f hf => absurd hf (by simp [cDemo, createClient, Client.On]))⟩
